import Mathlib

/-!
Verification of the crypto-api-server reconciliation cache core.

Shallow embedding of:
  - `inmemorycache.CurrencyCache` (Set / Get / GetAll) over an association
    list modelling the Go `map[string]*wsclient.Ticker`;
  - `wrappers.Wrappers.GetMarketSummary` (read-through resolver, miss path),
    with the external quote fetch as an explicit function parameter;
  - the per-update body of `wrappers.Wrappers.subscribeFeeds` (push path),
    with `strconv.ParseFloat` modelled as an explicit partial parse function
    whose failure yields zero (the Go code discards the error);
  - the lock-acquisition traces of the three cache operations, used to
    examine the concurrency guarantee claimed for `GetAll`.

Go `float64` quantities are modelled as `Rat` (no claim here depends on
floating-point rounding); the Go `time.Time` zero value is modelled as the
empty string.
-/

/-- `wsclient.Ticker`: the Summary Record. Field defaults model Go zero
values (a composite literal leaves unmentioned fields at their zero value);
`Timestamp` models `time.Time`, with `""` standing for the zero time. -/
structure Ticker where
  ID : String := ""
  FullName : String := ""
  Ask : Rat := 0
  Bid : Rat := 0
  Last : Rat := 0
  Open : Rat := 0
  Low : Rat := 0
  High : Rat := 0
  Volume : Rat := 0
  VolumeQuote : Rat := 0
  Timestamp : String := ""
  Symbol : String := ""
  FeeCurrency : String := ""
  deriving DecidableEq

/-- Lookup in an association list modelling a Go map read `m[k]`. -/
def mapLookup {β : Type} (m : List (String × β)) (k : String) : Option β :=
  match m with
  | [] => none
  | p :: rest => if p.1 = k then some p.2 else mapLookup rest k

/-- Update in an association list modelling a Go map write `m[k] = v`:
replaces the binding when the key is present, otherwise appends it. -/
def mapSet {β : Type} (m : List (String × β)) (k : String) (v : β) :
    List (String × β) :=
  match m with
  | [] => [(k, v)]
  | p :: rest => if p.1 = k then (k, v) :: rest else p :: mapSet rest k v

/-- `inmemorycache.CurrencyCache`: the Summary Store. The `internal` map is
modelled as an association list (one binding per key); the mutex has no
counterpart in this sequential embedding — its acquisition order is
modelled separately by the lock traces below. -/
structure CurrencyCache where
  internal : List (String × Ticker)
  deriving DecidableEq

/-- `NewCurrencyCache` creates an empty store. -/
def NewCurrencyCache : CurrencyCache := ⟨[]⟩

/-- `CurrencyCache.Set`: stores `data` under `currencySymbol`, returning the
previous binding (Go returns the old pointer, `nil` when absent) together
with the updated store (the Go method mutates in place). -/
def CurrencyCache.Set (sc : CurrencyCache) (currencySymbol : String)
    (data : Ticker) : Option Ticker × CurrencyCache :=
  let old := mapLookup sc.internal currencySymbol
  (old, ⟨mapSet sc.internal currencySymbol data⟩)

/-- `CurrencyCache.Get`: the Go two-valued map read `ret, isSet := m[k]`;
`(some t, true)` models a present non-nil pointer, `(none, false)` absence. -/
def CurrencyCache.Get (sc : CurrencyCache) (currencySymbol : String) :
    Option Ticker × Bool :=
  let ret := mapLookup sc.internal currencySymbol
  (ret, ret.isSome)

/-- `CurrencyCache.GetAll`: collects every stored record; errors with
"no data present" (the `EmptyCache` condition) when none were collected. -/
def CurrencyCache.GetAll (sc : CurrencyCache) :
    Except String (List Ticker) :=
  let allData := sc.internal.map Prod.snd
  if allData.length = 0 then Except.error "no data present"
  else Except.ok allData

theorem mapLookup_mapSet_self {β : Type} (m : List (String × β)) (k : String)
    (v : β) : mapLookup (mapSet m k v) k = some v := by
  induction m with
  | nil => simp [mapSet, mapLookup]
  | cons p rest ih =>
    by_cases h : p.1 = k
    · simp [mapSet, h, mapLookup]
    · simp [mapSet, h, mapLookup, ih]

theorem mapSet_ne_nil {β : Type} (m : List (String × β)) (k : String)
    (v : β) : mapSet m k v ≠ [] := by
  cases m with
  | nil => simp [mapSet]
  | cons p rest => simp only [mapSet]; split <;> simp

/-- Helper: a `Get` directly after a `Set` of the same key sees the value
just written. -/
theorem cache_set_get_self (sc : CurrencyCache) (s : String) (r : Ticker) :
    ((sc.Set s r).2).Get s = (some r, true) := by
  simp [CurrencyCache.Set, CurrencyCache.Get, mapLookup_mapSet_self]

/-- C1: after a successful `set(s, r)` on the Summary Store — from any
prior store state, hence regardless of which writer (resolver miss-fill or
feed coordinator) performed the last `set` — `get(s)` returns `(r, true)`:
the most recently set record for `s` wins. -/
theorem currencyCache_set_then_get (sc : CurrencyCache) (s : String)
    (r : Ticker) : ((sc.Set s r).2).Get s = (some r, true) :=
  cache_set_get_self sc s r

/-- C3: `getAll()` fails with the `EmptyCache` error if and only if the
store holds zero entries; after a successful `set`, it returns a non-empty
sequence containing every currently stored record. -/
theorem currencyCache_getAll_spec (sc : CurrencyCache) (s : String)
    (r : Ticker) :
    ((∃ e, sc.GetAll = Except.error e) ↔ sc.internal = []) ∧
    (∃ l, ((sc.Set s r).2).GetAll = Except.ok l ∧ l ≠ [] ∧
      ∀ t ∈ ((sc.Set s r).2).internal.map Prod.snd, t ∈ l) := by
  constructor
  · constructor
    · intro ⟨e, he⟩
      by_contra hne
      have hlen : sc.internal.length ≠ 0 := by
        simpa [List.length_eq_zero] using hne
      simp [CurrencyCache.GetAll, hlen] at he
    · intro h
      exact ⟨"no data present", by simp [CurrencyCache.GetAll, h]⟩
  · refine ⟨((sc.Set s r).2).internal.map Prod.snd, ?_, ?_, fun t ht => ht⟩
    · have hne : (mapSet sc.internal s r).length ≠ 0 := by
        simpa [List.length_eq_zero] using mapSet_ne_nil sc.internal s r
      simp [CurrencyCache.GetAll, CurrencyCache.Set, hne]
    · simpa [CurrencyCache.Set, List.map_eq_nil_iff] using mapSet_ne_nil sc.internal s r

/-- The read-only environment of the wrapper: the two enrichment lookup
tables (Go package-level maps `SymbolsFeeCurrency` and `CurrencyFullName`
in `wrappers`, populated once at startup) and the Supported Symbol Set.
`supportedSymbols` is referenced by `wrapper.go` but its declaration is not
among the provided source files; modelled from the spec: an immutable
(post-initialization) ordered sequence of symbol identifiers, carried here
as an explicit parameter. -/
structure Env where
  SymbolsFeeCurrency : List (String × String)
  CurrencyFullName : List (String × String)
  supportedSymbols : List String

/-- `Wrappers.Contains`: linear membership scan over a string slice. -/
def Contains (s : List String) (str : String) : Bool :=
  match s with
  | [] => false
  | v :: rest => if v = str then true else Contains rest str

/-- Go `strings.ToUpper`, restricted to the ASCII symbol strings this
program handles: upper-cases every character. -/
def strToUpper (s : String) : String :=
  String.mk (s.data.map Char.toUpper)

/-- `HitBtc.GetTicker` (REST client): issues the quote fetch against the
upper-cased market string. The HTTP round trip plus JSON decode is the
explicit `fetch` parameter; the decoded `Ticker` carries whatever `Symbol`
string the upstream response contained. -/
def HitBtc.GetTicker (fetch : String → Except String Ticker)
    (market : String) : Except String Ticker :=
  fetch (strToUpper market)

/-- `Wrappers.GetTicker`: calls the REST client and rebuilds the ticker,
copying only the ten quote fields (so `ID`, `FullName`, `FeeCurrency` are
left at their zero values). -/
def Wrappers.GetTicker (fetch : String → Except String Ticker)
    (symbol : String) : Except String Ticker :=
  match HitBtc.GetTicker fetch symbol with
  | Except.error err => Except.error err
  | Except.ok hitbtcTicker => Except.ok
      { Last := hitbtcTicker.Last
        Ask := hitbtcTicker.Ask
        Bid := hitbtcTicker.Bid
        Open := hitbtcTicker.Open
        Low := hitbtcTicker.Low
        High := hitbtcTicker.High
        Volume := hitbtcTicker.Volume
        VolumeQuote := hitbtcTicker.VolumeQuote
        Symbol := hitbtcTicker.Symbol
        Timestamp := hitbtcTicker.Timestamp }

/-- The enriched record the miss path builds from a fetched ticker:
`FeeCurrency` looked up by the fetched `Symbol` (empty string when absent),
`FullName` looked up by that fee currency (empty string when absent), and
`ID` set to the fetched `Symbol`. Mirrors the `ret := &wsclient.Ticker{...}`
literal in `GetMarketSummary`. -/
def enrichTicker (env : Env) (hitbtcTicker : Ticker) : Ticker :=
  let feeCurrency := (mapLookup env.SymbolsFeeCurrency hitbtcTicker.Symbol).getD ""
  let fullName := (mapLookup env.CurrencyFullName feeCurrency).getD ""
  { Last := hitbtcTicker.Last
    Ask := hitbtcTicker.Ask
    Bid := hitbtcTicker.Bid
    Open := hitbtcTicker.Open
    Low := hitbtcTicker.Low
    High := hitbtcTicker.High
    Volume := hitbtcTicker.Volume
    VolumeQuote := hitbtcTicker.VolumeQuote
    Symbol := hitbtcTicker.Symbol
    Timestamp := hitbtcTicker.Timestamp
    FeeCurrency := feeCurrency
    FullName := fullName
    ID := hitbtcTicker.Symbol }

/-- Result of one `GetMarketSummary` call: the returned `(record, error)`
pair, the store afterwards, and how many quote fetches were performed. -/
structure ResolveResult where
  result : Except String Ticker
  cache : CurrencyCache
  fetches : Nat

/-- `Wrappers.GetMarketSummary`: the read-through resolver. On hit, return
the cached record with no fetch. On miss, fetch (once, no retry); on fetch
failure return the error unchanged; on success enrich, persist gated by
`Contains supportedSymbols hitbtcTicker.Symbol` under the caller's
`symbol` key, and return the enriched record either way. -/
def Wrappers.GetMarketSummary (env : Env)
    (fetch : String → Except String Ticker) (summaries : CurrencyCache)
    (symbol : String) : ResolveResult :=
  let g := summaries.Get symbol
  if g.2 then { result := Except.ok (g.1.getD {}), cache := summaries, fetches := 0 }
  else
    match Wrappers.GetTicker fetch symbol with
    | Except.error err => { result := Except.error err, cache := summaries, fetches := 1 }
    | Except.ok hitbtcTicker =>
      let ret := enrichTicker env hitbtcTicker
      let summaries2 :=
        if Contains env.supportedSymbols hitbtcTicker.Symbol
        then (summaries.Set symbol ret).2 else summaries
      { result := Except.ok ret, cache := summaries2, fetches := 1 }

/-- Helper: the full outcome of a miss with successful fetch, shared by the
resolver theorems. -/
theorem getMarketSummary_miss_ok (env : Env)
    (fetch : String → Except String Ticker) (sc : CurrencyCache)
    (s : String) (t : Ticker) (hmiss : (sc.Get s).2 = false)
    (hfetch : Wrappers.GetTicker fetch s = Except.ok t) :
    Wrappers.GetMarketSummary env fetch sc s =
      { result := Except.ok (enrichTicker env t)
        cache := if Contains env.supportedSymbols t.Symbol
                 then (sc.Set s (enrichTicker env t)).2 else sc
        fetches := 1 } := by
  simp [Wrappers.GetMarketSummary, hmiss, hfetch]

/-- Sample environment used by the concrete witnesses. -/
def envW : Env :=
  { SymbolsFeeCurrency := [("ETHBTC", "BTC")]
    CurrencyFullName := [("BTC", "Bitcoin")]
    supportedSymbols := ["ETHBTC"] }

/-- Sample cached record used by the concrete witnesses. -/
def tickW : Ticker := { Symbol := "ETHBTC", ID := "ETHBTC", Last := 3 }

/-- Sample one-entry store used by the concrete witnesses. -/
def cacheW : CurrencyCache := ⟨[("ETHBTC", tickW)]⟩

/-- Sample fetch that echoes the requested market as the response symbol. -/
def fetchEcho : String → Except String Ticker :=
  fun m => Except.ok { Symbol := m, Last := 5 }

/-- Sample failing fetch. -/
def fetchErrW : String → Except String Ticker :=
  fun _ => Except.error "connection refused"

/-- C5: on a store hit, the resolver returns the cached record, performs no
fetch, and leaves the store unchanged — no freshness check, no TTL. -/
theorem getMarketSummary_hit (env : Env)
    (fetch : String → Except String Ticker) (sc : CurrencyCache)
    (s : String) (t : Ticker) (hhit : sc.Get s = (some t, true)) :
    (Wrappers.GetMarketSummary env fetch sc s).result = Except.ok t ∧
    (Wrappers.GetMarketSummary env fetch sc s).fetches = 0 ∧
    (Wrappers.GetMarketSummary env fetch sc s).cache = sc := by
  simp [Wrappers.GetMarketSummary, hhit]

/-- C5 witness: concrete hit on a one-entry store. -/
theorem getMarketSummary_hit_witness :
    cacheW.Get "ETHBTC" = (some tickW, true) ∧
    ((Wrappers.GetMarketSummary envW fetchErrW cacheW "ETHBTC").result = Except.ok tickW ∧
     (Wrappers.GetMarketSummary envW fetchErrW cacheW "ETHBTC").fetches = 0 ∧
     (Wrappers.GetMarketSummary envW fetchErrW cacheW "ETHBTC").cache = cacheW) :=
  have h : cacheW.Get "ETHBTC" = (some tickW, true) := by decide
  ⟨h, getMarketSummary_hit envW fetchErrW cacheW "ETHBTC" tickW h⟩

/-- C6: on a miss whose fetch fails, the resolver returns that failure
verbatim with no record, performs exactly one fetch attempt (no retry), and
leaves the store unchanged. -/
theorem getMarketSummary_fetch_error (env : Env)
    (fetch : String → Except String Ticker) (sc : CurrencyCache)
    (s : String) (e : String) (hmiss : (sc.Get s).2 = false)
    (hfail : Wrappers.GetTicker fetch s = Except.error e) :
    (Wrappers.GetMarketSummary env fetch sc s).result = Except.error e ∧
    (Wrappers.GetMarketSummary env fetch sc s).fetches = 1 ∧
    (Wrappers.GetMarketSummary env fetch sc s).cache = sc := by
  simp [Wrappers.GetMarketSummary, hmiss, hfail]

/-- C6 witness: concrete failing fetch on an empty store. -/
theorem getMarketSummary_fetch_error_witness :
    (NewCurrencyCache.Get "ETHBTC").2 = false ∧
    Wrappers.GetTicker fetchErrW "ETHBTC" = Except.error "connection refused" ∧
    ((Wrappers.GetMarketSummary envW fetchErrW NewCurrencyCache "ETHBTC").result
        = Except.error "connection refused" ∧
     (Wrappers.GetMarketSummary envW fetchErrW NewCurrencyCache "ETHBTC").fetches = 1 ∧
     (Wrappers.GetMarketSummary envW fetchErrW NewCurrencyCache "ETHBTC").cache
        = NewCurrencyCache) :=
  have h1 : (NewCurrencyCache.Get "ETHBTC").2 = false := by decide
  have h2 : Wrappers.GetTicker fetchErrW "ETHBTC" = Except.error "connection refused" := by
    simp [Wrappers.GetTicker, HitBtc.GetTicker, fetchErrW]
  ⟨h1, h2, getMarketSummary_fetch_error envW fetchErrW NewCurrencyCache "ETHBTC"
    "connection refused" h1 h2⟩

/-- Environment for the persistence-gate counterexample: Supported Symbol
Set is exactly {"ETHBTC"}. -/
def envCex : Env :=
  { SymbolsFeeCurrency := [], CurrencyFullName := [], supportedSymbols := ["ETHBTC"] }

/-- C2 counterexample: resolving the uncached symbol "ethbtc" (with the
fetch echoing the upper-cased request "ETHBTC") persists a record even
though the requested symbol "ethbtc" is not a member of the Supported
Symbol Set — so "writes into the Summary Store if and only if s is a
member of the Supported Symbol Set" is false: the gate tests the fetched
symbol string, not the caller's argument. -/
theorem getMarketSummary_persist_gate_cex :
    Contains envCex.supportedSymbols "ethbtc" = false ∧
    ((Wrappers.GetMarketSummary envCex fetchEcho NewCurrencyCache "ethbtc").cache.Get
      "ethbtc").2 = true := by
  decide

/-- C2 (amended): on a miss with successful fetch, the resolver returns the
enriched record — `FeeCurrency` looked up by the fetched record's symbol
(empty string if absent), `FullName` looked up by that fee currency (empty
string if absent) — and writes it into the Summary Store if and only if the
fetched record's symbol (not necessarily the requested one) is a member of
the Supported Symbol Set; the record is returned whether or not it was
persisted. -/
theorem getMarketSummary_miss_success (env : Env)
    (fetch : String → Except String Ticker) (sc : CurrencyCache)
    (s : String) (t : Ticker) (hmiss : (sc.Get s).2 = false)
    (hfetch : Wrappers.GetTicker fetch s = Except.ok t) :
    (Wrappers.GetMarketSummary env fetch sc s).result
        = Except.ok (enrichTicker env t) ∧
    (enrichTicker env t).FeeCurrency
        = (mapLookup env.SymbolsFeeCurrency t.Symbol).getD "" ∧
    (enrichTicker env t).FullName
        = (mapLookup env.CurrencyFullName
            ((mapLookup env.SymbolsFeeCurrency t.Symbol).getD "")).getD "" ∧
    ((Wrappers.GetMarketSummary env fetch sc s).cache
        = (sc.Set s (enrichTicker env t)).2
      ↔ Contains env.supportedSymbols t.Symbol = true) := by
  rw [getMarketSummary_miss_ok env fetch sc s t hmiss hfetch]
  refine ⟨rfl, rfl, rfl, ?_⟩
  by_cases hc : Contains env.supportedSymbols t.Symbol
  · simp [hc]
  · have hcf : Contains env.supportedSymbols t.Symbol = false := by
      simpa using hc
    rw [hcf]
    simp only [Bool.false_eq_true, if_false, iff_false]
    intro heq
    have hget := cache_set_get_self sc s (enrichTicker env t)
    rw [← heq] at hget
    rw [hget] at hmiss
    simp at hmiss

/-- C2 witness: concrete miss with successful fetch in `envW`, where the
fetched symbol "ETHBTC" is supported, the fee currency resolves to "BTC"
and the full name to "Bitcoin". -/
theorem getMarketSummary_miss_success_witness :
    (NewCurrencyCache.Get "ETHBTC").2 = false ∧
    Wrappers.GetTicker fetchEcho "ETHBTC"
        = Except.ok { Symbol := "ETHBTC", Last := 5 } ∧
    ((Wrappers.GetMarketSummary envW fetchEcho NewCurrencyCache "ETHBTC").result
        = Except.ok (enrichTicker envW { Symbol := "ETHBTC", Last := 5 }) ∧
     (enrichTicker envW { Symbol := "ETHBTC", Last := 5 }).FeeCurrency
        = (mapLookup envW.SymbolsFeeCurrency
            (Ticker.Symbol { Symbol := "ETHBTC", Last := 5 })).getD "" ∧
     (enrichTicker envW { Symbol := "ETHBTC", Last := 5 }).FullName
        = (mapLookup envW.CurrencyFullName
            ((mapLookup envW.SymbolsFeeCurrency
              (Ticker.Symbol { Symbol := "ETHBTC", Last := 5 })).getD "")).getD "" ∧
     ((Wrappers.GetMarketSummary envW fetchEcho NewCurrencyCache "ETHBTC").cache
        = (NewCurrencyCache.Set "ETHBTC"
            (enrichTicker envW { Symbol := "ETHBTC", Last := 5 })).2
      ↔ Contains envW.supportedSymbols
            (Ticker.Symbol { Symbol := "ETHBTC", Last := 5 }) = true)) :=
  have h1 : (NewCurrencyCache.Get "ETHBTC").2 = false := by decide
  have hup : strToUpper "ETHBTC" = "ETHBTC" := by decide
  have h2 : Wrappers.GetTicker fetchEcho "ETHBTC"
      = Except.ok { Symbol := "ETHBTC", Last := 5 } := by
    simp [Wrappers.GetTicker, HitBtc.GetTicker, fetchEcho, hup]
  ⟨h1, h2, getMarketSummary_miss_success envW fetchEcho NewCurrencyCache "ETHBTC"
    { Symbol := "ETHBTC", Last := 5 } h1 h2⟩

/-- C10: in the miss path the fetch is issued against the upper-cased
request; the Supported Symbol Set membership gate and the stored record's
`Symbol` and `ID` fields all use the symbol string the fetch returned,
while the store key is the caller's original `symbol` argument — so
cacheability is decided by the fetched string and the record is cached
under the requested key, which may differ from the record's own `Symbol`. -/
theorem getMarketSummary_fetched_symbol_vs_request_key (env : Env)
    (fetch : String → Except String Ticker) (sc : CurrencyCache)
    (s : String) (t : Ticker) (hmiss : (sc.Get s).2 = false)
    (hfetch : fetch (strToUpper s) = Except.ok t) :
    ∃ r : Ticker,
      (Wrappers.GetMarketSummary env fetch sc s).result = Except.ok r ∧
      r.Symbol = t.Symbol ∧ r.ID = t.Symbol ∧
      (Contains env.supportedSymbols t.Symbol = true →
        (Wrappers.GetMarketSummary env fetch sc s).cache = (sc.Set s r).2 ∧
        ((Wrappers.GetMarketSummary env fetch sc s).cache.Get s) = (some r, true)) ∧
      (Contains env.supportedSymbols t.Symbol = false →
        (Wrappers.GetMarketSummary env fetch sc s).cache = sc) := by
  have hg : Wrappers.GetTicker fetch s = Except.ok
      { Last := t.Last, Ask := t.Ask, Bid := t.Bid, Open := t.Open, Low := t.Low
        High := t.High, Volume := t.Volume, VolumeQuote := t.VolumeQuote
        Symbol := t.Symbol, Timestamp := t.Timestamp } := by
    simp [Wrappers.GetTicker, HitBtc.GetTicker, hfetch]
  rw [getMarketSummary_miss_ok env fetch sc s _ hmiss hg]
  refine ⟨enrichTicker env
    { Last := t.Last, Ask := t.Ask, Bid := t.Bid, Open := t.Open, Low := t.Low
      High := t.High, Volume := t.Volume, VolumeQuote := t.VolumeQuote
      Symbol := t.Symbol, Timestamp := t.Timestamp }, rfl, rfl, rfl, ?_, ?_⟩
  · intro hc
    simp [hc, cache_set_get_self]
  · intro hc
    simp [hc]

/-- C10 witness: requesting lowercase "ethbtc" fetches "ETHBTC", which is
supported, so a record whose `Symbol` is "ETHBTC" is cached under the key
"ethbtc". -/
theorem getMarketSummary_fetched_symbol_vs_request_key_witness :
    (NewCurrencyCache.Get "ethbtc").2 = false ∧
    fetchEcho (strToUpper "ethbtc") = Except.ok { Symbol := "ETHBTC", Last := 5 } ∧
    (∃ r : Ticker,
      (Wrappers.GetMarketSummary envCex fetchEcho NewCurrencyCache "ethbtc").result
          = Except.ok r ∧
      r.Symbol = Ticker.Symbol { Symbol := "ETHBTC", Last := 5 } ∧
      r.ID = Ticker.Symbol { Symbol := "ETHBTC", Last := 5 } ∧
      (Contains envCex.supportedSymbols
          (Ticker.Symbol { Symbol := "ETHBTC", Last := 5 }) = true →
        (Wrappers.GetMarketSummary envCex fetchEcho NewCurrencyCache "ethbtc").cache
            = (NewCurrencyCache.Set "ethbtc" r).2 ∧
        ((Wrappers.GetMarketSummary envCex fetchEcho NewCurrencyCache "ethbtc").cache.Get
            "ethbtc") = (some r, true)) ∧
      (Contains envCex.supportedSymbols
          (Ticker.Symbol { Symbol := "ETHBTC", Last := 5 }) = false →
        (Wrappers.GetMarketSummary envCex fetchEcho NewCurrencyCache "ethbtc").cache
            = NewCurrencyCache)) :=
  have h1 : (NewCurrencyCache.Get "ethbtc").2 = false := by decide
  have hup : strToUpper "ethbtc" = "ETHBTC" := by decide
  have h2 : fetchEcho (strToUpper "ethbtc")
      = Except.ok { Symbol := "ETHBTC", Last := 5 } := by rw [hup]; rfl
  ⟨h1, h2, getMarketSummary_fetched_symbol_vs_request_key envCex fetchEcho
    NewCurrencyCache "ethbtc" { Symbol := "ETHBTC", Last := 5 } h1 h2⟩

/-- `wsclient.WSNotificationTickerResponse`: one decoded push update; all
numeric fields (and the timestamp) are string-encoded. -/
structure WSNotificationTickerResponse where
  Ask : String := ""
  Bid : String := ""
  Last : String := ""
  Open : String := ""
  Low : String := ""
  High : String := ""
  Volume : String := ""
  VolumeQuote : String := ""
  Timestamp : String := ""
  Symbol : String := ""
  deriving DecidableEq

/-- `strconv.ParseFloat` with its error discarded, exactly as the push
path's `x, _ := strconv.ParseFloat(...)` does: `pf` is the parse function
(`none` models a parse error) and failure yields zero. -/
def parseFloatOrZero (pf : String → Option Rat) (s : String) : Rat :=
  (pf s).getD 0

/-- The record the push-path listener (`handleTicker` in `subscribeFeeds`)
builds from one update: the eight numeric fields parsed with failures
degraded to zero, the same enrichment as the miss path keyed by the
update's `Symbol`, `ID` set to that symbol — and no `Timestamp`: the Go
composite literal omits the field, leaving the zero time. -/
def pushRecord (env : Env) (pf : String → Option Rat)
    (hitbtcSummary : WSNotificationTickerResponse) : Ticker :=
  let last := parseFloatOrZero pf hitbtcSummary.Last
  let ask := parseFloatOrZero pf hitbtcSummary.Ask
  let bid := parseFloatOrZero pf hitbtcSummary.Bid
  let openPrice := parseFloatOrZero pf hitbtcSummary.Open
  let low := parseFloatOrZero pf hitbtcSummary.Low
  let high := parseFloatOrZero pf hitbtcSummary.High
  let volume := parseFloatOrZero pf hitbtcSummary.Volume
  let volumeQuota := parseFloatOrZero pf hitbtcSummary.VolumeQuote
  let feeCurrency := (mapLookup env.SymbolsFeeCurrency hitbtcSummary.Symbol).getD ""
  let fullName := (mapLookup env.CurrencyFullName feeCurrency).getD ""
  { Last := last
    Ask := ask
    Bid := bid
    Open := openPrice
    Low := low
    High := high
    Volume := volume
    VolumeQuote := volumeQuota
    Symbol := hitbtcSummary.Symbol
    FeeCurrency := feeCurrency
    FullName := fullName
    ID := hitbtcSummary.Symbol }

/-- One iteration of the `handleTicker` loop on a delivered update for the
subscription key `symbol`: build the record and `Set` it under `symbol`,
gated by membership of the update's symbol in the Supported Symbol Set —
there is no read of the store before the write. -/
def processPushUpdate (env : Env) (pf : String → Option Rat)
    (summaries : CurrencyCache) (symbol : String)
    (hitbtcSummary : WSNotificationTickerResponse) : CurrencyCache :=
  let sum := pushRecord env pf hitbtcSummary
  if Contains env.supportedSymbols hitbtcSummary.Symbol
  then (summaries.Set symbol sum).2 else summaries

/-- Sample parse function for the witnesses: parses "100.5" and "101.0",
fails on everything else. -/
def pfW : String → Option Rat :=
  fun s => if s = "100.5" then some (201 / 2 : Rat)
           else if s = "101.0" then some (101 : Rat) else none

/-- Sample push update for the witnesses: `Last` and `Ask` parse, `Bid` is
malformed, and an explicit timestamp is provided. -/
def uW : WSNotificationTickerResponse :=
  { Last := "100.5", Ask := "101.0", Bid := "bogus", Symbol := "ETHBTC"
    Timestamp := "2021-01-01T00:00:00.000Z" }

/-- C4: for every decoded push update, each string-encoded numeric field is
converted and a conversion failure yields zero for that field without
aborting the record; the record carries the same enrichment as the miss
path, and — gated only by Supported Symbol Set membership — is `set` into
the Summary Store unconditionally over any prior value, with no
read-before-write. -/
theorem subscribeFeeds_update_conversion_and_set (env : Env)
    (pf : String → Option Rat) (sc : CurrencyCache) (symbol : String)
    (u : WSNotificationTickerResponse) :
    (pushRecord env pf u).Last = (pf u.Last).getD 0 ∧
    (pushRecord env pf u).Ask = (pf u.Ask).getD 0 ∧
    (pushRecord env pf u).Bid = (pf u.Bid).getD 0 ∧
    (pushRecord env pf u).Open = (pf u.Open).getD 0 ∧
    (pushRecord env pf u).Low = (pf u.Low).getD 0 ∧
    (pushRecord env pf u).High = (pf u.High).getD 0 ∧
    (pushRecord env pf u).Volume = (pf u.Volume).getD 0 ∧
    (pushRecord env pf u).VolumeQuote = (pf u.VolumeQuote).getD 0 ∧
    (pushRecord env pf u).FeeCurrency
        = (mapLookup env.SymbolsFeeCurrency u.Symbol).getD "" ∧
    (pushRecord env pf u).FullName
        = (mapLookup env.CurrencyFullName
            ((mapLookup env.SymbolsFeeCurrency u.Symbol).getD "")).getD "" ∧
    (Contains env.supportedSymbols u.Symbol = true →
      processPushUpdate env pf sc symbol u
          = (sc.Set symbol (pushRecord env pf u)).2 ∧
      (processPushUpdate env pf sc symbol u).Get symbol
          = (some (pushRecord env pf u), true)) ∧
    (Contains env.supportedSymbols u.Symbol = false →
      processPushUpdate env pf sc symbol u = sc) := by
  refine ⟨rfl, rfl, rfl, rfl, rfl, rfl, rfl, rfl, rfl, rfl, ?_, ?_⟩
  · intro hc
    exact ⟨by simp [processPushUpdate, hc],
           by simp [processPushUpdate, hc, cache_set_get_self]⟩
  · intro hc
    simp [processPushUpdate, hc]

/-- C4 witness: the sample update for the supported symbol "ETHBTC", over
a store that already holds a record for it, is converted (the malformed
`Bid` degrades to zero) and overwrites the prior entry. -/
theorem subscribeFeeds_update_conversion_and_set_witness :
    Contains envW.supportedSymbols uW.Symbol = true ∧
    (processPushUpdate envW pfW cacheW "ETHBTC" uW
        = (cacheW.Set "ETHBTC" (pushRecord envW pfW uW)).2 ∧
     (processPushUpdate envW pfW cacheW "ETHBTC" uW).Get "ETHBTC"
        = (some (pushRecord envW pfW uW), true)) ∧
    (pushRecord envW pfW uW).Last = (pfW uW.Last).getD 0 ∧
    (pushRecord envW pfW uW).Bid = (pfW uW.Bid).getD 0 :=
  have hc : Contains envW.supportedSymbols uW.Symbol = true := by decide
  have h := subscribeFeeds_update_conversion_and_set envW pfW cacheW "ETHBTC" uW
  ⟨hc, h.2.2.2.2.2.2.2.2.2.2.1 hc, h.1, h.2.2.1⟩

/-- C9 counterexample: a push update carrying an explicit timestamp for a
supported symbol is stored with the zero timestamp — the listener's record
literal omits the `Timestamp` field, so the explicitly provided value never
reaches the Summary Store. -/
theorem push_timestamp_dropped_cex :
    uW.Timestamp = "2021-01-01T00:00:00.000Z" ∧
    Contains envW.supportedSymbols uW.Symbol = true ∧
    ((processPushUpdate envW pfW NewCurrencyCache "ETHBTC" uW).Get "ETHBTC").1
        = some (pushRecord envW pfW uW) ∧
    (pushRecord envW pfW uW).Timestamp = "" ∧
    (pushRecord envW pfW uW).Timestamp ≠ uW.Timestamp := by
  refine ⟨rfl, by decide, rfl, rfl, by decide⟩

/-- C9 (amended): every record written to the Summary Store by the push
path carries the zero (absent) timestamp, even when the incoming update
explicitly provides one — the update's timestamp field is always
discarded. -/
theorem push_timestamp_always_absent (env : Env) (pf : String → Option Rat)
    (sc : CurrencyCache) (symbol : String)
    (u : WSNotificationTickerResponse) :
    (pushRecord env pf u).Timestamp = "" ∧
    (Contains env.supportedSymbols u.Symbol = true →
      processPushUpdate env pf sc symbol u
          = (sc.Set symbol (pushRecord env pf u)).2) := by
  refine ⟨rfl, fun hc => ?_⟩
  simp [processPushUpdate, hc]

/-- C9 witness: the amended statement at the sample update, whose provided
timestamp is discarded on write. -/
theorem push_timestamp_always_absent_witness :
    (pushRecord envW pfW uW).Timestamp = "" ∧
    Contains envW.supportedSymbols uW.Symbol = true ∧
    processPushUpdate envW pfW NewCurrencyCache "ETHBTC" uW
        = (NewCurrencyCache.Set "ETHBTC" (pushRecord envW pfW uW)).2 :=
  have hc : Contains envW.supportedSymbols uW.Symbol = true := by decide
  ⟨(push_timestamp_always_absent envW pfW NewCurrencyCache "ETHBTC" uW).1, hc,
   (push_timestamp_always_absent envW pfW NewCurrencyCache "ETHBTC" uW).2 hc⟩

/-- Atomic actions on the store's mutex and internal map, listed in program
order as read off the Go method bodies of `CurrencyCache`. -/
inductive LockAct
  | rlock | runlock | wlock | wunlock | mapRead | mapWrite
  deriving DecidableEq

/-- Action trace of `CurrencyCache.Set`: `Lock`; read `internal[k]` (the
old value); write `internal[k] = data`; `Unlock`. -/
def setLockTrace : List LockAct :=
  [LockAct.wlock, LockAct.mapRead, LockAct.mapWrite, LockAct.wunlock]

/-- Action trace of `CurrencyCache.Get`: `RLock`; read; `RUnlock`. -/
def getLockTrace : List LockAct :=
  [LockAct.rlock, LockAct.mapRead, LockAct.runlock]

/-- Action trace of `CurrencyCache.GetAll` over a store with `n` entries:
the `for i := range sc.internal` loop advances the map iterator (a map
read) before the body acquires the read lock, so every iteration performs
an unguarded map read followed by a guarded indexed read. -/
def getAllLockTrace : Nat → List LockAct
  | 0 => []
  | n + 1 =>
      [LockAct.mapRead, LockAct.rlock, LockAct.mapRead, LockAct.runlock]
        ++ getAllLockTrace n

/-- Checks that every map access in a trace happens while at least one
lock is held (`depth` counts locks currently held). -/
def lockGuarded : List LockAct → Nat → Bool
  | [], _ => true
  | a :: rest, depth =>
    match a with
    | LockAct.rlock => lockGuarded rest (depth + 1)
    | LockAct.wlock => lockGuarded rest (depth + 1)
    | LockAct.runlock => lockGuarded rest (depth - 1)
    | LockAct.wunlock => lockGuarded rest (depth - 1)
    | LockAct.mapRead => if depth = 0 then false else lockGuarded rest depth
    | LockAct.mapWrite => if depth = 0 then false else lockGuarded rest depth

/-- C8: `Set` and `Get` touch the shared map only while holding the mutex,
but `GetAll` advances the map iterator outside any lock on every iteration
of its range loop, so a concurrent `Set` (a locked map write) pairs with an
unguarded map read — the claimed safety of all three operations under
arbitrary concurrent invocation fails for `GetAll`. -/
theorem getAll_map_access_unguarded :
    lockGuarded setLockTrace 0 = true ∧
    lockGuarded getLockTrace 0 = true ∧
    lockGuarded (getAllLockTrace 1) 0 = false := by
  decide

/-- Operations performed on a Go channel, as read off the source. -/
inductive ChanAct
  | mk | send | recv | closeCh
  deriving DecidableEq

/-- Every operation that `FeedConnect` and the shutdown goroutine it spawns
perform on the `closeChan` passed to each `subscribeFeeds` listener, in
source order: the channel is created, and — the signal goroutine body being
`<-ch; os.Exit(0)` — it is never sent on and never closed. -/
def feedConnectCloseChanActs : List ChanAct := [ChanAct.mk]

/-- C7: `FeedConnect` never sends on or closes `closeChan`, so the
`<-closeChan` branch of every listener's select is unreachable: no
listening task ever performs the unsubscribe-and-exit transition on a
process-wide shutdown signal; shutdown is instead an immediate process
exit that closes no per-symbol channel. -/
theorem feedConnect_closeChan_never_signaled :
    ChanAct.send ∉ feedConnectCloseChanActs ∧
    ChanAct.closeCh ∉ feedConnectCloseChanActs := by
  decide




